import Mathlib

/-!
Verification of the pitch-arithmetic core and the indicator-collection
mutation model of `mutwo.ext-music`.

Conventions of the shallow embedding:

* Python strings are modelled by their character lists (`List Char`);
  a pitch-class name is the list of its characters, its first character
  is the diatonic letter and the remaining characters the accidental.
* Python real numbers are modelled by `ℚ`.  All numbers manipulated by
  the pitch code (diatonic skeleton offsets, accidental offsets,
  cent-derived pitch-class modifications) are rational.
* Python `%` and `//` on integers use floor semantics; they are
  modelled by `Int.fmod` and `Int.fdiv`.
* Fallible code returns `Except` / `Option`; a raised Python exception
  is an `Except.error` carrying the kind of exception.
-/

namespace MutwoMusic

/-- Python's builtin `abs` on a rational number. -/
def pyabs (q : ℚ) : ℚ := if q < 0 then -q else q

/-- Python's builtin `round` (round-half-to-even) on a rational number. -/
def pythonRound (q : ℚ) : ℤ :=
  let f := ⌊q⌋
  if q - f < 1/2 then f
  else if (1 : ℚ)/2 < q - f then f + 1
  else if Even f then f else f + 1

/-- Python's builtin `int` (truncation towards zero) on a rational number. -/
def pyTruncInt (q : ℚ) : ℤ := if 0 ≤ q then ⌊q⌋ else ⌈q⌉

/-- Lookup in an association list, mirroring a Python `dict` access
(`dict` preserves insertion order; keys here are unique). -/
def assocLookup {α β : Type} [DecidableEq α] (k : α) : List (α × β) → Option β
  | [] => none
  | (a, b) :: t => if a = k then some b else assocLookup k t

/-- Modelled from the spec: the repository's
`music_parameters.constants.DIATONIC_PITCH_NAME_TO_PITCH_CLASS_DICT` is not
under `src/`; the spec fixes the ascending 7-letter cycle and its chromatic
skeleton (c=0, d=2, e=4, f=5, g=7, a=9, b=11). -/
def DIATONIC_PITCH_NAME_TO_PITCH_CLASS_DICT : List (Char × ℚ) :=
  [('c', 0), ('d', 2), ('e', 4), ('f', 5), ('g', 7), ('a', 9), ('b', 11)]

/-- Modelled from the spec: the ascending diatonic letter tuple
(`music_parameters.constants.ASCENDING_DIATONIC_PITCH_NAME_TUPLE`),
fixed letter ordering c<d<e<f<g<a<b. -/
def ASCENDING_DIATONIC_PITCH_NAME_TUPLE : List Char :=
  DIATONIC_PITCH_NAME_TO_PITCH_CLASS_DICT.map (·.1)

/-- Modelled from the spec: `music_parameters.constants.DIATONIC_PITCH_CLASS_COUNT`. -/
def DIATONIC_PITCH_CLASS_COUNT : ℤ := 7

/-- Modelled from the spec: `music_parameters.constants.CHROMATIC_PITCH_CLASS_COUNT`. -/
def CHROMATIC_PITCH_CLASS_COUNT : ℤ := 12

/-- Modelled from the spec: the accidental vocabulary
(`music_parameters.configurations.ACCIDENTAL_NAME_TO_PITCH_CLASS_MODIFICATION_DICT`)
is not under `src/`; the spec enumerates natural, sharp (`s`), flat (`f`),
quarter-sharp (`qs`), quarter-flat (`qf`), double-sharp (`ss`) and
double-flat (`ff`), each mapped to a signed rational semitone offset. -/
def ACCIDENTAL_NAME_TO_PITCH_CLASS_MODIFICATION_DICT : List (List Char × ℚ) :=
  [([], 0), (['s'], 1), (['f'], -1), (['q', 's'], 1/2), (['q', 'f'], -1/2),
   (['s', 's'], 2), (['f', 'f'], -2)]

/-- Modelled from the spec: the inverse accidental table
(`music_parameters.configurations.PITCH_CLASS_MODIFICATION_TO_ACCIDENTAL_NAME_DICT`),
with the deterministic (insertion) ordering of the forward table. -/
def PITCH_CLASS_MODIFICATION_TO_ACCIDENTAL_NAME_DICT : List (ℚ × List Char) :=
  ACCIDENTAL_NAME_TO_PITCH_CLASS_MODIFICATION_DICT.map (fun p => (p.2, p.1))

/-- Modelled from the spec: `core_utilities.find_closest_index` (the generic
utility lives in the external `mutwo.core` collaborator); the spec prescribes
"numerically closest, ties broken by the fixed ordering of the table", i.e.
the first index attaining the minimal absolute distance. -/
def findClosestIndexAux (x : ℚ) : List ℚ → ℕ → ℕ → ℚ → ℕ
  | [], _, best_index, _ => best_index
  | q :: t, i, best_index, best_distance =>
    if pyabs (x - q) < best_distance then findClosestIndexAux x t (i + 1) i (pyabs (x - q))
    else findClosestIndexAux x t (i + 1) best_index best_distance

/-- Modelled from the spec: see `findClosestIndexAux`. -/
def find_closest_index (x : ℚ) (l : List ℚ) : ℕ :=
  match l with
  | [] => 0
  | q :: t => findClosestIndexAux x t 1 0 (pyabs (x - q))

/-- Modelled from the spec: `core_utilities.find_closest_item`. -/
def find_closest_item (x : ℚ) (l : List ℚ) : ℚ :=
  l.getD (find_closest_index x l) 0

/-- The kinds of Python exceptions that the embedded code can raise. -/
inductive PyError
  | indexError
  | keyError
  | valueError
  /-- the `NotImplementedError` raised for an unknown accidental -/
  | unknownAccidental
  /-- an error raised by the `WesternPitchInterval` constructor -/
  | intervalError
  deriving DecidableEq

/-- `WesternPitch._accidental_to_pitch_class_modifications`: translate an
accidental to its pitch-class modification; raises (`NotImplementedError`)
when the accidental is not in the accidental table. -/
def _accidental_to_pitch_class_modifications (accidental : List Char) : Except PyError ℚ :=
  match assocLookup accidental ACCIDENTAL_NAME_TO_PITCH_CLASS_MODIFICATION_DICT with
  | some m => .ok m
  | none => .error .unknownAccidental

/-- `WesternPitch._pitch_class_name_to_pitch_class`: split a pitch-class name
into its first character (diatonic letter, looked up first — an unknown
letter raises `KeyError`) and the remainder (accidental), and return
`diatonic_pitch_class + pitch_class_modification`.  An empty name raises
`IndexError` at `pitch_class_name[0]`. -/
def _pitch_class_name_to_pitch_class (pitch_class_name : List Char) : Except PyError ℚ :=
  match pitch_class_name with
  | [] => .error .indexError
  | diatonic_pitch_class_name :: accidental =>
    match assocLookup diatonic_pitch_class_name DIATONIC_PITCH_NAME_TO_PITCH_CLASS_DICT with
    | none => .error .keyError
    | some diatonic_pitch_class =>
      (_accidental_to_pitch_class_modifications accidental).map
        (fun pitch_class_modification => diatonic_pitch_class + pitch_class_modification)

/-- `WesternPitch._difference_to_closest_diatonic_pitch_to_accidental`:
translate a residual offset to the closest known accidental.  The final
dictionary access cannot fail because the closest key is drawn from the
dictionary's own keys; it is modelled with a default. -/
def _difference_to_closest_diatonic_pitch_to_accidental
    (difference_to_closest_diatonic_pitch : ℚ) : List Char :=
  let closest_pitch_class_modification := find_closest_item
    difference_to_closest_diatonic_pitch
    (PITCH_CLASS_MODIFICATION_TO_ACCIDENTAL_NAME_DICT.map (·.1))
  (assocLookup closest_pitch_class_modification
    PITCH_CLASS_MODIFICATION_TO_ACCIDENTAL_NAME_DICT).getD []

/-- `WesternPitch._pitch_class_to_pitch_class_name`: choose the diatonic
letter whose base offset is closest to the pitch class, then the accidental
closest to the residual, and concatenate. -/
def _pitch_class_to_pitch_class_name (pitch_class : ℚ) : List Char :=
  let diatonic_pitch_classes := DIATONIC_PITCH_NAME_TO_PITCH_CLASS_DICT.map (·.2)
  let closest_diatonic_pitch_class_index := find_closest_index pitch_class diatonic_pitch_classes
  let diatonic_pitch_class := diatonic_pitch_classes.getD closest_diatonic_pitch_class_index 0
  let diatonic_pitch :=
    (DIATONIC_PITCH_NAME_TO_PITCH_CLASS_DICT.map (·.1)).getD closest_diatonic_pitch_class_index 'c'
  let accidental_adjustments := pitch_class - diatonic_pitch_class
  diatonic_pitch :: _difference_to_closest_diatonic_pitch_to_accidental accidental_adjustments

/-- Modelled from the spec: `music_parameters.WesternPitchInterval` (declared
in this repository but not under `src/`).  It carries a 1-based diatonic step
count, a direction flag and a cent deviation from the interval's default
diatonic quality. -/
structure WesternPitchInterval where
  interval_type : ℕ
  is_interval_falling : Bool
  interval_quality_cent_deviation : ℚ
  deriving DecidableEq

/-- Modelled from the spec: the default (perfect/major) interval size in
cents for each diatonic step count 1..7 over the chromatic skeleton. -/
def DEFAULT_INTERVAL_CENT_LIST : List ℚ :=
  [0, 200, 400, 500, 700, 900, 1100]

/-- Modelled from the spec: the default interval size in cents of an
interval type, octave-extended through the 7-step cycle. -/
def WesternPitchInterval.defaultCent (i : WesternPitchInterval) : ℚ :=
  1200 * ((i.interval_type - 1) / 7 : ℕ) +
    DEFAULT_INTERVAL_CENT_LIST.getD ((i.interval_type - 1) % 7) 0

/-- Modelled from the spec: the signed semitone count an interval stands
for (its default size plus its cent deviation, negated when falling);
this is what the base pitch type's generic numeric arithmetic consumes. -/
def WesternPitchInterval.semitone (i : WesternPitchInterval) : ℚ :=
  (if i.is_interval_falling then -1 else 1) *
    (i.defaultCent + i.interval_quality_cent_deviation) / 100

/-- Modelled from the spec: `inverse_direction()` returns a
direction-flipped copy of the interval. -/
def WesternPitchInterval.inverse_direction (i : WesternPitchInterval) : WesternPitchInterval :=
  { i with is_interval_falling := !i.is_interval_falling }

/-- Modelled from the spec: a semitone count (mod an octave) expressed as a
diatonic step count with a cent deviation from the default quality. -/
def SEMITONE_TO_INTERVAL_TYPE_AND_DEVIATION : List (ℕ × ℚ) :=
  [(1, 0), (2, -100), (2, 0), (3, -100), (3, 0), (4, 0), (4, 100),
   (5, 0), (6, -100), (6, 0), (7, -100), (7, 0)]

/-- Modelled from the spec: the `WesternPitchInterval` constructor applied to
an integral semitone count (the interval type cannot represent fractional
diatonic steps). -/
def WesternPitchInterval.ofSemitoneCount (n : ℤ) : WesternPitchInterval :=
  let a := n.natAbs
  let td := SEMITONE_TO_INTERVAL_TYPE_AND_DEVIATION.getD (a % 12) (1, 0)
  ⟨td.1 + 7 * (a / 12), decide (n < 0), td.2⟩

/-- Modelled from the spec: the `WesternPitchInterval` constructor applied to
a real number; only called on numbers within 0.001 semitone of an integer. -/
def WesternPitchInterval.ofNumber (q : ℚ) : WesternPitchInterval :=
  WesternPitchInterval.ofSemitoneCount (pythonRound q)

/-- Digits of an interval-name string to a number. -/
def digitsToNat? : List Char → Option ℕ
  | [] => none
  | l => if l.all (·.isDigit) then some (l.foldl (fun n c => 10 * n + (c.toNat - '0'.toNat)) 0)
         else none

/-- Modelled from the spec: the `WesternPitchInterval` constructor applied to
an interval-name string.  The spec does not fix the name grammar; a minimal
quality-letter + step-count grammar (optionally prefixed by `-` for a
falling interval) is used.  No theorem below depends on its details. -/
def WesternPitchInterval.ofString (s : List Char) : Option WesternPitchInterval :=
  let build : List Char → Option WesternPitchInterval := fun t =>
    match t with
    | q :: digits =>
      (digitsToNat? digits).bind (fun n =>
        if n = 0 then none
        else match q with
          | 'm' => some ⟨n, false, -100⟩
          | 'M' => some ⟨n, false, 0⟩
          | 'p' => some ⟨n, false, 0⟩
          | 'A' => some ⟨n, false, 100⟩
          | _ => none)
    | [] => none
  match s with
  | '-' :: t => (build t).map (fun i => { i with is_interval_falling := true })
  | t => build t

/-- `WesternPitch`: pitch class (a rational semitone count), octave and the
cached pitch-class name, kept in sync by every mutation. -/
structure WesternPitch where
  pitch_class : ℚ
  octave : ℤ
  pitch_class_name : List Char
  deriving DecidableEq

/-- `WesternPitch.diatonic_pitch_class_name`: the first character of the
pitch-class name (`pitch_class_name[0]`). -/
def WesternPitch.diatonic_pitch_class_name (p : WesternPitch) : Char :=
  p.pitch_class_name.headD 'c'

/-- `WesternPitch.accidental_name`: the pitch-class name without its first
character (`pitch_class_name[1:]`). -/
def WesternPitch.accidental_name (p : WesternPitch) : List Char :=
  p.pitch_class_name.tail

/-- Construction from a pitch-class name (the string branch of
`_pitch_class_or_pitch_class_name_to_pitch_class_and_pitch_class_name`):
the pitch class is derived from the name; a conversion error aborts the
construction. -/
def WesternPitch.ofPitchClassName (name : List Char) (octave : ℤ) : Except PyError WesternPitch :=
  (_pitch_class_name_to_pitch_class name).map
    (fun pitch_class => ⟨pitch_class, octave, name⟩)

/-- Construction from a pitch-class number (the `numbers.Real` branch of
`_pitch_class_or_pitch_class_name_to_pitch_class_and_pitch_class_name`):
the name is derived from the number. -/
def WesternPitch.ofPitchClass (pitch_class : ℚ) (octave : ℤ) : WesternPitch :=
  ⟨pitch_class, octave, _pitch_class_to_pitch_class_name pitch_class⟩

/-- The `pitch_class_name` property setter: regenerates `_pitch_class` via
`_pitch_class_name_to_pitch_class` (computed before any mutation, so a
conversion error leaves the pitch unchanged). -/
def WesternPitch.setPitchClassName (p : WesternPitch) (name : List Char) :
    Except PyError WesternPitch :=
  (_pitch_class_name_to_pitch_class name).map
    (fun pitch_class => ⟨pitch_class, p.octave, name⟩)

/-- The `pitch_class` property setter: regenerates `_pitch_class_name` via
`_pitch_class_to_pitch_class_name`. -/
def WesternPitch.setPitchClass (p : WesternPitch) (pitch_class : ℚ) : WesternPitch :=
  ⟨pitch_class, p.octave, _pitch_class_to_pitch_class_name pitch_class⟩

/-- Modelled from the spec: the generic numeric interval addition of the
base pitch type (`EqualDividedOctavePitch`, outside `src/`): add the
semitone count to the pitch class, move whole octaves into the octave
counter, and regenerate the name through the `pitch_class` setter. -/
def WesternPitch.addNumericSemitone (p : WesternPitch) (semitone : ℚ) : WesternPitch :=
  let new_pitch_class := p.pitch_class + semitone
  let octave_difference := ⌊new_pitch_class / 12⌋
  { p.setPitchClass (new_pitch_class - 12 * octave_difference) with
    octave := p.octave + octave_difference }

/-- Modelled from the spec: the generic numeric interval subtraction of the
base pitch type. -/
def WesternPitch.subtractNumericSemitone (p : WesternPitch) (semitone : ℚ) : WesternPitch :=
  let new_pitch_class := p.pitch_class - semitone
  let octave_difference := ⌊new_pitch_class / 12⌋
  { p.setPitchClass (new_pitch_class - 12 * octave_difference) with
    octave := p.octave + octave_difference }

/-- The operand type of `WesternPitch.add` / `WesternPitch.subtract`:
a string, a bare real number, or a `WesternPitchInterval`. -/
inductive PitchIntervalOperand
  | ofStr (s : List Char)
  | ofReal (q : ℚ)
  | ofInterval (i : WesternPitchInterval)
  deriving DecidableEq

/-- The result of `_parse_pitch_interval`: either a `WesternPitchInterval`
or the untouched real number. -/
inductive ParsedPitchInterval
  | interval (i : WesternPitchInterval)
  | real (q : ℚ)
  deriving DecidableEq

/-- `WesternPitch._parse_pitch_interval`: a string is always handed to the
`WesternPitchInterval` constructor; a real number is converted only when it
is within 0.001 semitone of an integer (`abs(round(x) - x) < 0.001`),
otherwise returned unchanged; a `WesternPitchInterval` is returned as is.
`none` models a constructor exception. -/
def _parse_pitch_interval (pitch_interval : PitchIntervalOperand) : Option ParsedPitchInterval :=
  match pitch_interval with
  | .ofStr s => (WesternPitchInterval.ofString s).map .interval
  | .ofReal q =>
    if pyabs ((pythonRound q : ℚ) - q) < 1/1000 then
      some (.interval (WesternPitchInterval.ofNumber q))
    else some (.real q)
  | .ofInterval i => some (.interval i)

/-- `WesternPitch._get_new_diatonic_pitch_class_name_and_octave_count`:
index of the current letter in the ascending tuple, plus (rising) or minus
(falling) `interval_type - 1`, reduced with Python's floor `%` and `//`
by the diatonic letter count; a letter missing from the tuple raises
`ValueError` at `.index`. -/
def _get_new_diatonic_pitch_class_name_and_octave_count
    (p : WesternPitch) (western_pitch_interval_to_add : WesternPitchInterval) :
    Except PyError (Char × ℤ) :=
  match ASCENDING_DIATONIC_PITCH_NAME_TUPLE.findIdx?
      (· = p.diatonic_pitch_class_name) with
  | none => .error .valueError
  | some current_diatonic_pitch_class_name_index =>
    let diatonic_pitch_class_name_index_difference : ℤ :=
      (western_pitch_interval_to_add.interval_type : ℤ) - 1
    let absolute_new_diatonic_pitch_class_name_index : ℤ :=
      if western_pitch_interval_to_add.is_interval_falling then
        (current_diatonic_pitch_class_name_index : ℤ) -
          diatonic_pitch_class_name_index_difference
      else
        (current_diatonic_pitch_class_name_index : ℤ) +
          diatonic_pitch_class_name_index_difference
    let new_diatonic_pitch_class_name_index :=
      absolute_new_diatonic_pitch_class_name_index.fmod DIATONIC_PITCH_CLASS_COUNT
    let octave_count :=
      absolute_new_diatonic_pitch_class_name_index.fdiv DIATONIC_PITCH_CLASS_COUNT
    .ok (ASCENDING_DIATONIC_PITCH_NAME_TUPLE.getD new_diatonic_pitch_class_name_index.toNat 'c',
      octave_count)

/-- Modelled from the spec:
`music_parameters.constants.DIATONIC_PITCH_CLASS_NAME_PAIR_TO_COMPENSATION_IN_CENTS_DICT`
is not under `src/`; per the spec it encodes, for an ordered letter pair,
how many cents the default quality of the connecting interval sits beyond
the plain diatonic skeleton distance (validated below against the spec's
own worked examples). -/
def DIATONIC_PITCH_CLASS_NAME_PAIR_TO_COMPENSATION_IN_CENTS_DICT
    (key : Char × Char) : Option ℚ :=
  match DIATONIC_PITCH_NAME_TO_PITCH_CLASS_DICT.findIdx? (·.1 = key.1),
      DIATONIC_PITCH_NAME_TO_PITCH_CLASS_DICT.findIdx? (·.1 = key.2),
      assocLookup key.1 DIATONIC_PITCH_NAME_TO_PITCH_CLASS_DICT,
      assocLookup key.2 DIATONIC_PITCH_NAME_TO_PITCH_CLASS_DICT with
  | some ia, some ib, some base_a, some base_b =>
    let step : ℤ := (ib : ℤ) - (ia : ℤ)
    let step7 := if step < 0 then step + 7 else step
    let dist : ℚ := base_b - base_a
    let dist12 := if dist < 0 then dist + 12 else dist
    some (DEFAULT_INTERVAL_CENT_LIST.getD step7.toNat 0 - 100 * dist12)
  | _, _, _, _ => none

/-- `WesternPitch._get_new_pitch_class_modification`: the interval's cent
deviation plus the compensation for the (ordered, reversed-when-falling)
letter pair, truncated to an integer cent count and divided by 100, is
added to (rising) or subtracted from (falling) the current accidental's
modification.  Dictionary misses raise `KeyError`. -/
def _get_new_pitch_class_modification
    (p : WesternPitch) (western_pitch_interval_to_add : WesternPitchInterval)
    (new_diatonic_pitch_class_name : Char) : Except PyError ℚ :=
  let key :=
    if western_pitch_interval_to_add.is_interval_falling then
      (new_diatonic_pitch_class_name, p.diatonic_pitch_class_name)
    else (p.diatonic_pitch_class_name, new_diatonic_pitch_class_name)
  match DIATONIC_PITCH_CLASS_NAME_PAIR_TO_COMPENSATION_IN_CENTS_DICT key with
  | none => .error .keyError
  | some compensation =>
    let added_cent_deviation :=
      western_pitch_interval_to_add.interval_quality_cent_deviation + compensation
    let added_pitch_class_modification : ℚ := (pyTruncInt added_cent_deviation : ℚ) / 100
    match assocLookup p.accidental_name ACCIDENTAL_NAME_TO_PITCH_CLASS_MODIFICATION_DICT with
    | none => .error .keyError
    | some current_modification =>
      .ok (if western_pitch_interval_to_add.is_interval_falling then
          current_modification - added_pitch_class_modification
        else current_modification + added_pitch_class_modification)

/-- The result of an interval addition: the diatonically spelled result, the
warned numeric fallback (`super().add`), or the plain numeric path for
non-interval operands. -/
inductive AddOutcome
  | diatonic (p : WesternPitch)
  | fallback (p : WesternPitch)
  | numeric (p : WesternPitch)
  deriving DecidableEq

/-- The pitch a `WesternPitch.add` / `subtract` outcome carries. -/
def AddOutcome.pitch : AddOutcome → WesternPitch
  | .diatonic p => p
  | .fallback p => p
  | .numeric p => p

/-- `WesternPitch._add_western_pitch_interval`: step the diatonic letter,
compute the new pitch-class modification, resolve it to an accidental name;
on a table miss warn and fall back to the base type's numeric addition
(the `fallback` outcome), otherwise assign the new pitch-class name through
its setter and add the octave count to the octave. -/
def _add_western_pitch_interval
    (p : WesternPitch) (western_pitch_interval_to_add : WesternPitchInterval) :
    Except PyError AddOutcome :=
  match _get_new_diatonic_pitch_class_name_and_octave_count p western_pitch_interval_to_add with
  | .error e => .error e
  | .ok (new_diatonic_pitch_class_name, octave_count) =>
    match _get_new_pitch_class_modification p western_pitch_interval_to_add
        new_diatonic_pitch_class_name with
    | .error e => .error e
    | .ok new_pitch_class_modification =>
      match assocLookup new_pitch_class_modification
          PITCH_CLASS_MODIFICATION_TO_ACCIDENTAL_NAME_DICT with
      | none =>
        .ok (.fallback (p.addNumericSemitone western_pitch_interval_to_add.semitone))
      | some new_accidental =>
        match p.setPitchClassName (new_diatonic_pitch_class_name :: new_accidental) with
        | .error e => .error e
        | .ok p' => .ok (.diatonic { p' with octave := p'.octave + octave_count })

/-- `WesternPitch.add`: parse the operand; a `WesternPitchInterval` takes the
diatonic path, anything else the base type's numeric addition. -/
def WesternPitch.add (p : WesternPitch) (pitch_interval : PitchIntervalOperand) :
    Except PyError AddOutcome :=
  match _parse_pitch_interval pitch_interval with
  | none => .error .intervalError
  | some (.interval i) => _add_western_pitch_interval p i
  | some (.real q) => .ok (.numeric (p.addNumericSemitone q))

/-- `WesternPitch.subtract`: parse the operand; a `WesternPitchInterval` is
added with its direction inverted, anything else goes to the base type's
numeric subtraction. -/
def WesternPitch.subtract (p : WesternPitch) (pitch_interval : PitchIntervalOperand) :
    Except PyError AddOutcome :=
  match _parse_pitch_interval pitch_interval with
  | none => .error .intervalError
  | some (.interval i) => p.add (.ofInterval i.inverse_direction)
  | some (.real q) => .ok (.numeric (p.subtractNumericSemitone q))

/-- A Python value assigned to an indicator-collection slot or stored in an
indicator field. -/
inductive PValue
  | vBool (b : Bool)
  | vStr (s : List Char)
  | vInt (n : ℤ)
  | vNone
  deriving DecidableEq

/-- Python's `bool()` coercion (truthiness) on a `PValue`. -/
def PValue.pybool : PValue → Bool
  | .vBool b => b
  | .vStr s => !s.isEmpty
  | .vInt n => decide (n ≠ 0)
  | .vNone => false

/-- Whether a `PValue` is a Python `bool`. -/
def PValue.isBool : PValue → Bool
  | .vBool _ => true
  | _ => false

/-- Modelled from the spec: the indicator base classes live in
`mutwo.ext.parameters.abc`, which is not under `src/`.  An explicit playing
indicator is a bare settable `is_active` flag; an implicit playing indicator
is a record of nullable fields whose `is_active` is derived (active iff
every declared field is non-null). -/
inductive PlayingIndicator
  | explicitPlaying (is_active : Bool)
  | implicitPlaying (field_list : List (Option PValue))
  deriving DecidableEq

/-- `is_active` of a playing indicator: the stored flag for an explicit
indicator, `all fields non-null` for an implicit one. -/
def PlayingIndicator.is_active : PlayingIndicator → Bool
  | .explicitPlaying b => b
  | .implicitPlaying field_list => field_list.all Option.isSome

/-- The slot names of `PlayingIndicatorCollection`. -/
inductive PlayingSlot
  | articulation | artifical_harmonic | arpeggio | bartok_pizzicato | bend_after
  | breath_mark | duration_line_dashed | duration_line_triller | fermata
  | glissando | hairpin | natural_harmonic | laissez_vibrer | ornamentation
  | pedal | prall | precise_natural_harmonic | string_contact_point | tie
  | tremolo | trill
  deriving DecidableEq

/-- A `PlayingIndicatorCollection`: each slot holds one playing indicator
for the collection's lifetime. -/
structure PlayingIndicatorCollection where
  slots : PlayingSlot → PlayingIndicator

/-- The freshly constructed `PlayingIndicatorCollection`: every slot is
populated with its indicator type's default instance (field defaults as
declared by the dataclasses; the pure flags are explicit indicators). -/
def defaultPlayingIndicatorCollection : PlayingIndicatorCollection where
  slots
    | .articulation => .implicitPlaying [none]
    | .artifical_harmonic => .implicitPlaying [none]
    | .arpeggio => .implicitPlaying [none]
    | .bartok_pizzicato => .explicitPlaying false
    | .bend_after => .implicitPlaying [none, some (.vInt 3), some (.vInt 3)]
    | .breath_mark => .explicitPlaying false
    | .duration_line_dashed => .explicitPlaying false
    | .duration_line_triller => .explicitPlaying false
    | .fermata => .implicitPlaying [none]
    | .glissando => .explicitPlaying false
    | .hairpin => .implicitPlaying [none]
    | .natural_harmonic => .explicitPlaying false
    | .laissez_vibrer => .explicitPlaying false
    | .ornamentation => .implicitPlaying [none, some (.vInt 1)]
    | .pedal => .implicitPlaying [none, some (.vBool true)]
    | .prall => .explicitPlaying false
    | .precise_natural_harmonic =>
      .implicitPlaying [none, none, some (.vBool true), some (.vBool false)]
    | .string_contact_point => .implicitPlaying [none]
    | .tie => .explicitPlaying false
    | .tremolo => .implicitPlaying [none]
    | .trill => .implicitPlaying [none]

/-- Replace one slot of a playing-indicator collection. -/
def setPlayingSlot (c : PlayingIndicatorCollection) (n : PlayingSlot)
    (ind : PlayingIndicator) : PlayingIndicatorCollection :=
  ⟨fun m => if m = n then ind else c.slots m⟩

/-- The error raised on an attempt to overwrite a frozen slot
(`dataclasses.FrozenInstanceError`). -/
inductive FrozenError
  | frozenInstanceError
  deriving DecidableEq

/-- `PlayingIndicatorCollection.__setattr__` on a slot name: `getattr` on a
constructed collection always finds the slot's indicator (never `None`, so
the `super().__setattr__` branch for unknown/uninitialised attributes is
not taken); if the indicator is an `ExplicitPlayingIndicator` the value is
coerced with `bool()` into its `is_active`, otherwise
`dataclasses.FrozenInstanceError` is raised and nothing is mutated. -/
def PlayingIndicatorCollection.pysetattr (c : PlayingIndicatorCollection)
    (parameter_name : PlayingSlot) (value : PValue) :
    Except FrozenError PlayingIndicatorCollection :=
  match c.slots parameter_name with
  | .explicitPlaying _ =>
    .ok (setPlayingSlot c parameter_name (.explicitPlaying value.pybool))
  | .implicitPlaying _ => .error .frozenInstanceError

/-- Modelled from the spec: a notation indicator
(`mutwo.ext.parameters.abc.NotationIndicator`, outside `src/`) is a record
of nullable fields with derived `is_active`. -/
structure NotationIndicator where
  field_list : List (Option PValue)
  deriving DecidableEq

/-- The slot names of `NotationIndicatorCollection`. -/
inductive NotationSlot
  | bar_line | clef | ottava | margin_markup | markup | rehearsal_mark
  deriving DecidableEq

/-- A `NotationIndicatorCollection`: each slot holds one notation indicator
for the collection's lifetime. -/
structure NotationIndicatorCollection where
  slots : NotationSlot → NotationIndicator

/-- The freshly constructed `NotationIndicatorCollection` with the field
defaults declared by the dataclasses. -/
def defaultNotationIndicatorCollection : NotationIndicatorCollection where
  slots
    | .bar_line => ⟨[none]⟩
    | .clef => ⟨[none]⟩
    | .ottava => ⟨[some (.vInt 0)]⟩
    | .margin_markup => ⟨[none, some (.vStr ['S', 't', 'a', 'f', 'f'])]⟩
    | .markup => ⟨[none, none]⟩
    | .rehearsal_mark => ⟨[none]⟩

/-- `NotationIndicatorCollection.__setattr__` on a slot name: `getattr` on a
constructed collection always finds the slot's indicator (never `None`), so
the assignment always raises `dataclasses.FrozenInstanceError` and nothing
is mutated — there is no boolean shorthand for notation indicators. -/
def NotationIndicatorCollection.pysetattr (c : NotationIndicatorCollection)
    (parameter_name : NotationSlot) (value : PValue) :
    Except FrozenError NotationIndicatorCollection :=
  match c.slots parameter_name with
  | _ => .error .frozenInstanceError

/-! ## Theorems about the indicator collections -/

/-- C3 counterexample: assigning the non-boolean string `"x"` to the
explicit slot `tie` of a fresh playing-indicator collection does **not**
raise a frozen-slot error — it succeeds and coerces the value with
`bool()`, setting `tie.is_active` to `True`. -/
theorem C3_counterexample_explicit_slot_accepts_nonboolean :
    (defaultPlayingIndicatorCollection.pysetattr .tie (.vStr ['x'])).map
      (fun c => c.slots .tie) = .ok (.explicitPlaying true) := rfl

/-- C3 (amended): writing any **non-explicit** (implicit) slot of a
playing-indicator collection with any value fails with
`dataclasses.FrozenInstanceError`, leaving the collection unchanged
(the error return carries no new state); a slot bound to an explicit
indicator instead accepts **any** value, boolean or not, coercing it with
`bool()` into the indicator's `is_active`. -/
theorem C3_amended_frozen_implicit_slots :
    (∀ (c : PlayingIndicatorCollection) (n : PlayingSlot) (v : PValue)
      (fl : List (Option PValue)), c.slots n = .implicitPlaying fl →
      c.pysetattr n v = .error .frozenInstanceError) ∧
    (∀ (c : PlayingIndicatorCollection) (n : PlayingSlot) (v : PValue) (a : Bool),
      c.slots n = .explicitPlaying a →
      c.pysetattr n v = .ok (setPlayingSlot c n (.explicitPlaying v.pybool))) := by
  constructor
  · intro c n v fl h
    simp [PlayingIndicatorCollection.pysetattr, h]
  · intro c n v a h
    simp [PlayingIndicatorCollection.pysetattr, h]

/-- C3 witness: the implicit `articulation` slot of a fresh collection
rejects the string `"x"` with a frozen-slot error. -/
theorem C3_witness_articulation_frozen :
    defaultPlayingIndicatorCollection.pysetattr .articulation (.vStr ['x']) =
      .error .frozenInstanceError :=
  C3_amended_frozen_implicit_slots.1 defaultPlayingIndicatorCollection
    .articulation (.vStr ['x']) [none] rfl

/-- C4: assigning a boolean `b` to a slot bound to an explicit playing
indicator never raises and never replaces the indicator object: the slot
still holds an explicit indicator whose `is_active` is exactly `b`, every
other slot is untouched, and in particular `tie := True` then `tie := False`
on a fresh collection toggles `tie.is_active` to `True` and back to
`False`. -/
theorem C4_explicit_boolean_assignment_is_activity_sugar :
    (∀ (c : PlayingIndicatorCollection) (n : PlayingSlot) (a b : Bool),
      c.slots n = .explicitPlaying a →
      c.pysetattr n (.vBool b) = .ok (setPlayingSlot c n (.explicitPlaying b)) ∧
      ((setPlayingSlot c n (.explicitPlaying b)).slots n).is_active = b ∧
      (∀ m, m ≠ n → (setPlayingSlot c n (.explicitPlaying b)).slots m = c.slots m)) ∧
    (defaultPlayingIndicatorCollection.pysetattr .tie (.vBool true)).map
      (fun c => (c.slots .tie).is_active) = .ok true ∧
    ((defaultPlayingIndicatorCollection.pysetattr .tie (.vBool true)).bind
      (fun c => c.pysetattr .tie (.vBool false))).map
      (fun c => (c.slots .tie).is_active) = .ok false := by
  refine ⟨?_, rfl, rfl⟩
  intro c n a b h
  refine ⟨?_, ?_, ?_⟩
  · simp [PlayingIndicatorCollection.pysetattr, h, PValue.pybool]
  · simp [setPlayingSlot, PlayingIndicator.is_active]
  · intro m hm
    simp [setPlayingSlot, hm]

/-- C4 witness: on a fresh collection, `tie := True` succeeds and yields the
collection whose `tie` slot is the active explicit indicator. -/
theorem C4_witness_tie_true :
    defaultPlayingIndicatorCollection.pysetattr .tie (.vBool true) =
      .ok (setPlayingSlot defaultPlayingIndicatorCollection .tie (.explicitPlaying true)) :=
  (C4_explicit_boolean_assignment_is_activity_sugar.1
    defaultPlayingIndicatorCollection .tie false true rfl).1

/-- C10: every slot of a playing-indicator collection that is not bound to
an explicit playing indicator rejects **every** assigned value — booleans
included — with `dataclasses.FrozenInstanceError`, and every slot of a
notation-indicator collection does the same; the error return carries no
new state, so the slot's indicator and all its fields stay unchanged.  The
boolean-toggle shorthand exists only for explicit playing-indicator
slots. -/
theorem C10_implicit_and_notation_slots_reject_all_values :
    (∀ (c : PlayingIndicatorCollection) (n : PlayingSlot) (v : PValue)
      (fl : List (Option PValue)), c.slots n = .implicitPlaying fl →
      c.pysetattr n v = .error .frozenInstanceError) ∧
    (∀ (c : NotationIndicatorCollection) (n : NotationSlot) (v : PValue),
      c.pysetattr n v = .error .frozenInstanceError) := by
  constructor
  · intro c n v fl h
    simp [PlayingIndicatorCollection.pysetattr, h]
  · intro c n v
    rfl

/-- C10 witness: `articulation := True` on a fresh playing collection fails
with the frozen-slot error even though `True` is a boolean, and so does
`clef := True` on a fresh notation collection. -/
theorem C10_witness_boolean_rejected :
    defaultPlayingIndicatorCollection.pysetattr .articulation (.vBool true) =
      .error .frozenInstanceError ∧
    defaultNotationIndicatorCollection.pysetattr .clef (.vBool true) =
      .error .frozenInstanceError :=
  ⟨C10_implicit_and_notation_slots_reject_all_values.1
      defaultPlayingIndicatorCollection .articulation (.vBool true) [none] rfl,
   C10_implicit_and_notation_slots_reject_all_values.2
      defaultNotationIndicatorCollection .clef (.vBool true)⟩

/-! ## Concrete pitches and intervals used by the claims -/

/-- The pitch `WesternPitch("c", 4)`. -/
def pitchC4 : WesternPitch := ⟨0, 4, ['c']⟩

/-- The pitch `WesternPitch("b", 4)`. -/
def pitchB4 : WesternPitch := ⟨11, 4, ['b']⟩

/-- An ascending major third: `interval_type=3`, not falling, 0 cent deviation. -/
def ascendingMajorThird : WesternPitchInterval := ⟨3, false, 0⟩

/-- An ascending (major) second: `interval_type=2`, not falling, 0 cent deviation. -/
def ascendingSecond : WesternPitchInterval := ⟨2, false, 0⟩

/-- A falling (major) second: `interval_type=2`, falling, 0 cent deviation. -/
def fallingSecond : WesternPitchInterval := ⟨2, true, 0⟩

/-- C1: for every `WesternPitch` and `WesternPitchInterval`, the new
diatonic letter index is the old letter's index in the ascending 7-letter
cycle plus `interval_type - 1` for rising intervals (minus for falling),
reduced with floor-division/modulo semantics by the diatonic letter count,
and the floor-division quotient becomes the octave count that the diatonic
addition adds to the pitch's octave; in particular
`WesternPitch("c", 4) + ascending major third = e4`,
`WesternPitch("b", 4) + ascending second = cs5` (letter c, octave 5), and a
falling second from `WesternPitch("c", 4)` crosses the letter-cycle
boundary down to `bf3`, decrementing the octave. -/
theorem C1_diatonic_letter_stepping :
    (∀ (p : WesternPitch) (i : WesternPitchInterval) (idx : ℕ),
      ASCENDING_DIATONIC_PITCH_NAME_TUPLE.findIdx? (· = p.diatonic_pitch_class_name) =
        some idx →
      _get_new_diatonic_pitch_class_name_and_octave_count p i =
        .ok (ASCENDING_DIATONIC_PITCH_NAME_TUPLE.getD
            (((if i.is_interval_falling then
                  (idx : ℤ) - ((i.interval_type : ℤ) - 1)
                else (idx : ℤ) + ((i.interval_type : ℤ) - 1)).fmod
              DIATONIC_PITCH_CLASS_COUNT).toNat) 'c',
          (if i.is_interval_falling then (idx : ℤ) - ((i.interval_type : ℤ) - 1)
            else (idx : ℤ) + ((i.interval_type : ℤ) - 1)).fdiv
            DIATONIC_PITCH_CLASS_COUNT)) ∧
    (∀ (p : WesternPitch) (i : WesternPitchInterval) (p' : WesternPitch),
      _add_western_pitch_interval p i = .ok (.diatonic p') →
      ∃ nm oc, _get_new_diatonic_pitch_class_name_and_octave_count p i = .ok (nm, oc) ∧
        p'.octave = p.octave + oc ∧ p'.diatonic_pitch_class_name = nm) ∧
    pitchC4.add (.ofInterval ascendingMajorThird) = .ok (.diatonic ⟨4, 4, ['e']⟩) ∧
    pitchB4.add (.ofInterval ascendingSecond) = .ok (.diatonic ⟨1, 5, ['c', 's']⟩) ∧
    pitchC4.add (.ofInterval fallingSecond) = .ok (.diatonic ⟨10, 3, ['b', 'f']⟩) := by
  refine ⟨?_, ?_, ?_, ?_, ?_⟩
  · intro p i idx h
    unfold _get_new_diatonic_pitch_class_name_and_octave_count
    rw [h]
  · intro p i p' h
    unfold _add_western_pitch_interval at h
    split at h
    · exact absurd h (by simp)
    · rename_i nm oc hg
      split at h
      · exact absurd h (by simp)
      · rename_i m hm
        split at h
        · exact absurd h (by simp)
        · rename_i acc hl
          split at h
          · exact absurd h (by simp)
          · rename_i p2 hs
            have h2 : ({ p2 with octave := p2.octave + oc } : WesternPitch) = p' := by
              simpa using h
            unfold WesternPitch.setPitchClassName at hs
            cases hn : _pitch_class_name_to_pitch_class (nm :: acc) with
            | error e => rw [hn] at hs; exact absurd hs (by simp [Except.map])
            | ok v =>
              rw [hn] at hs
              have h3 : (⟨v, p.octave, nm :: acc⟩ : WesternPitch) = p2 := by
                simpa [Except.map] using hs
              refine ⟨nm, oc, hg, ?_, ?_⟩
              · rw [← h2, ← h3]
              · rw [← h2, ← h3]
                rfl
  · norm_num +decide [WesternPitch.add, _parse_pitch_interval, _add_western_pitch_interval,
      _get_new_diatonic_pitch_class_name_and_octave_count,
      _get_new_pitch_class_modification,
      DIATONIC_PITCH_CLASS_NAME_PAIR_TO_COMPENSATION_IN_CENTS_DICT,
      ASCENDING_DIATONIC_PITCH_NAME_TUPLE, DIATONIC_PITCH_NAME_TO_PITCH_CLASS_DICT,
      DIATONIC_PITCH_CLASS_COUNT, DEFAULT_INTERVAL_CENT_LIST,
      ACCIDENTAL_NAME_TO_PITCH_CLASS_MODIFICATION_DICT,
      PITCH_CLASS_MODIFICATION_TO_ACCIDENTAL_NAME_DICT,
      assocLookup, pyTruncInt, pyabs, pitchC4, ascendingMajorThird,
      WesternPitch.diatonic_pitch_class_name, WesternPitch.accidental_name,
      WesternPitch.setPitchClassName, _pitch_class_name_to_pitch_class,
      _accidental_to_pitch_class_modifications, Int.toNat_ofNat,
      show Int.fmod 2 7 = 2 from by decide, show Int.fdiv 2 7 = 0 from by decide,
      show Int.toNat 2 = 2 from rfl, Except.map]
  · norm_num +decide [WesternPitch.add, _parse_pitch_interval, _add_western_pitch_interval,
      _get_new_diatonic_pitch_class_name_and_octave_count,
      _get_new_pitch_class_modification,
      DIATONIC_PITCH_CLASS_NAME_PAIR_TO_COMPENSATION_IN_CENTS_DICT,
      ASCENDING_DIATONIC_PITCH_NAME_TUPLE, DIATONIC_PITCH_NAME_TO_PITCH_CLASS_DICT,
      DIATONIC_PITCH_CLASS_COUNT, DEFAULT_INTERVAL_CENT_LIST,
      ACCIDENTAL_NAME_TO_PITCH_CLASS_MODIFICATION_DICT,
      PITCH_CLASS_MODIFICATION_TO_ACCIDENTAL_NAME_DICT,
      assocLookup, pyTruncInt, pyabs, pitchB4, ascendingSecond,
      WesternPitch.diatonic_pitch_class_name, WesternPitch.accidental_name,
      WesternPitch.setPitchClassName, _pitch_class_name_to_pitch_class,
      _accidental_to_pitch_class_modifications, Int.toNat_ofNat,
      show Int.fmod 7 7 = 0 from by decide, show Int.fdiv 7 7 = 1 from by decide,
      show Int.toNat 0 = 0 from rfl, show Int.toNat 1 = 1 from rfl, Except.map]
  · norm_num +decide [WesternPitch.add, _parse_pitch_interval, _add_western_pitch_interval,
      _get_new_diatonic_pitch_class_name_and_octave_count,
      _get_new_pitch_class_modification,
      DIATONIC_PITCH_CLASS_NAME_PAIR_TO_COMPENSATION_IN_CENTS_DICT,
      ASCENDING_DIATONIC_PITCH_NAME_TUPLE, DIATONIC_PITCH_NAME_TO_PITCH_CLASS_DICT,
      DIATONIC_PITCH_CLASS_COUNT, DEFAULT_INTERVAL_CENT_LIST,
      ACCIDENTAL_NAME_TO_PITCH_CLASS_MODIFICATION_DICT,
      PITCH_CLASS_MODIFICATION_TO_ACCIDENTAL_NAME_DICT,
      assocLookup, pyTruncInt, pyabs, pitchC4, fallingSecond,
      WesternPitch.diatonic_pitch_class_name, WesternPitch.accidental_name,
      WesternPitch.setPitchClassName, _pitch_class_name_to_pitch_class,
      _accidental_to_pitch_class_modifications, Int.toNat_ofNat,
      show Int.fmod (-1) 7 = 6 from by decide, show Int.fdiv (-1) 7 = -1 from by decide,
      show Int.toNat 6 = 6 from rfl, show Int.toNat 1 = 1 from rfl, Except.map]

/-- C1 witness: the stepping law applied to `WesternPitch("c", 4)` and the
ascending major third (letter index 0, steps +2). -/
theorem C1_witness_stepping_c_major_third :
    _get_new_diatonic_pitch_class_name_and_octave_count pitchC4 ascendingMajorThird =
      .ok ('e', 0) := by
  have h := C1_diatonic_letter_stepping.1 pitchC4 ascendingMajorThird 0 (by decide)
  rw [h]
  exact rfl

/-- C9: name-to-number conversion splits a pitch-class name into its first
character (the diatonic letter) and the remainder (the accidental); for a
name whose first character is a diatonic letter, it raises the
unknown-accidental error (`NotImplementedError`) exactly when the accidental
substring is absent from the accidental table, returns
`diatonic_base_offset(letter) + accidental_offset(accidental)` otherwise,
and on the error the `WesternPitch` under construction is not produced. -/
theorem C9_name_to_number_unknown_accidental :
    ∀ (s : List Char) (c : Char) (rest : List Char) (b : ℚ),
      s = c :: rest →
      assocLookup c DIATONIC_PITCH_NAME_TO_PITCH_CLASS_DICT = some b →
      ((_pitch_class_name_to_pitch_class s = .error .unknownAccidental ↔
        assocLookup rest ACCIDENTAL_NAME_TO_PITCH_CLASS_MODIFICATION_DICT = none) ∧
      (∀ o, assocLookup rest ACCIDENTAL_NAME_TO_PITCH_CLASS_MODIFICATION_DICT = some o →
        _pitch_class_name_to_pitch_class s = .ok (b + o)) ∧
      (assocLookup rest ACCIDENTAL_NAME_TO_PITCH_CLASS_MODIFICATION_DICT = none →
        ∀ octave, WesternPitch.ofPitchClassName s octave = .error .unknownAccidental)) := by
  intro s c rest b hs hb
  subst hs
  cases hl : assocLookup rest ACCIDENTAL_NAME_TO_PITCH_CLASS_MODIFICATION_DICT with
  | none =>
    refine ⟨?_, ?_, ?_⟩
    · simp [_pitch_class_name_to_pitch_class, hb,
        _accidental_to_pitch_class_modifications, hl, Except.map]
    · intro o ho
      exact absurd ho (by simp)
    · intro _ octave
      simp [WesternPitch.ofPitchClassName, _pitch_class_name_to_pitch_class, hb,
        _accidental_to_pitch_class_modifications, hl, Except.map]
  | some o' =>
    refine ⟨?_, ?_, ?_⟩
    · simp [_pitch_class_name_to_pitch_class, hb,
        _accidental_to_pitch_class_modifications, hl, Except.map]
    · intro o ho
      injection ho with ho
      subst ho
      simp [_pitch_class_name_to_pitch_class, hb,
        _accidental_to_pitch_class_modifications, hl, Except.map]
    · intro hn
      exact absurd hn (by simp)

/-- C9 witness: `"cxx"` has the valid letter `c` but the accidental `"xx"`
is unknown, so conversion raises the unknown-accidental error and the pitch
is not constructed; `"cs"` converts to `0 + 1`. -/
theorem C9_witness_unknown_accidental :
    _pitch_class_name_to_pitch_class ['c', 'x', 'x'] = .error .unknownAccidental ∧
    WesternPitch.ofPitchClassName ['c', 'x', 'x'] 4 = .error .unknownAccidental ∧
    _pitch_class_name_to_pitch_class ['c', 's'] = .ok (0 + 1) := by
  have h1 := C9_name_to_number_unknown_accidental ['c', 'x', 'x'] 'c' ['x', 'x'] 0 rfl rfl
  have h2 := C9_name_to_number_unknown_accidental ['c', 's'] 'c' ['s'] 0 rfl rfl
  exact ⟨h1.1.mpr rfl, h1.2.2 rfl 4, h2.2.1 1 rfl⟩

/-- C8: `subtract` applied to any operand that parses to a
`WesternPitchInterval` (a `WesternPitchInterval` itself, an interval-name
string, or a near-integer real) equals `add` applied to the interval's
direction-inverted copy; for an operand that stays a plain real it
delegates to the base type's numeric subtraction. -/
theorem C8_subtract_is_add_of_inverse :
    (∀ (p : WesternPitch) (op : PitchIntervalOperand) (i : WesternPitchInterval),
      _parse_pitch_interval op = some (.interval i) →
      p.subtract op = p.add (.ofInterval i.inverse_direction)) ∧
    (∀ (p : WesternPitch) (op : PitchIntervalOperand) (q : ℚ),
      _parse_pitch_interval op = some (.real q) →
      p.subtract op = .ok (.numeric (p.subtractNumericSemitone q))) := by
  constructor
  · intro p op i h
    unfold WesternPitch.subtract
    rw [h]
  · intro p op q h
    unfold WesternPitch.subtract
    rw [h]

/-- C8 witness: subtracting the falling second from `WesternPitch("c", 4)`
is adding its direction-inverted (ascending) copy. -/
theorem C8_witness_falling_second :
    pitchC4.subtract (.ofInterval fallingSecond) =
      pitchC4.add (.ofInterval fallingSecond.inverse_direction) :=
  C8_subtract_is_add_of_inverse.1 pitchC4 (.ofInterval fallingSecond) fallingSecond rfl

/-- The pitch the source keeps for the fallback witness: `"css"` 4
(c double-sharp), pitch class 2. -/
def pitchCss4 : WesternPitch := ⟨2, 4, ['c', 's', 's']⟩

/-- An ascending augmented third: `interval_type=3`, not falling,
+100 cent deviation. -/
def ascendingAugmentedThird : WesternPitchInterval := ⟨3, false, 100⟩

/-- C6: whenever the computed rational pitch-class modification has no entry
in the accidental table, `_add_western_pitch_interval` does not raise: it
returns the warned fallback (the base pitch type's letter-name-agnostic
numeric interval addition), and the fallback pitch is numerically correct —
its total semitone position is the old position plus the interval's signed
semitone count. -/
theorem C6_fallback_on_missing_accidental :
    ∀ (p : WesternPitch) (i : WesternPitchInterval) (nm : Char) (oc : ℤ) (m : ℚ),
      _get_new_diatonic_pitch_class_name_and_octave_count p i = .ok (nm, oc) →
      _get_new_pitch_class_modification p i nm = .ok m →
      assocLookup m PITCH_CLASS_MODIFICATION_TO_ACCIDENTAL_NAME_DICT = none →
      _add_western_pitch_interval p i =
        .ok (.fallback (p.addNumericSemitone i.semitone)) ∧
      12 * ((p.addNumericSemitone i.semitone).octave : ℚ) +
          (p.addNumericSemitone i.semitone).pitch_class =
        12 * (p.octave : ℚ) + p.pitch_class + i.semitone := by
  intro p i nm oc m hg hm hl
  constructor
  · simp only [_add_western_pitch_interval, hg, hm, hl]
  · simp only [WesternPitch.addNumericSemitone, WesternPitch.setPitchClass]
    push_cast
    ring

/-- C6 witness: `css4` plus an ascending augmented third needs modification
`3` (triple sharp), which has no accidental name, so the addition falls back
to the numeric path instead of raising. -/
theorem C6_witness_css_augmented_third :
    _add_western_pitch_interval pitchCss4 ascendingAugmentedThird =
      .ok (.fallback (pitchCss4.addNumericSemitone ascendingAugmentedThird.semitone)) :=
  (C6_fallback_on_missing_accidental pitchCss4 ascendingAugmentedThird 'e' 0 3
    (by exact rfl)
    (by norm_num +decide [_get_new_pitch_class_modification,
      DIATONIC_PITCH_CLASS_NAME_PAIR_TO_COMPENSATION_IN_CENTS_DICT,
      DIATONIC_PITCH_NAME_TO_PITCH_CLASS_DICT, DEFAULT_INTERVAL_CENT_LIST,
      ACCIDENTAL_NAME_TO_PITCH_CLASS_MODIFICATION_DICT, assocLookup,
      pyTruncInt, pitchCss4, ascendingAugmentedThird,
      WesternPitch.diatonic_pitch_class_name, WesternPitch.accidental_name,
      Int.toNat_ofNat, show Int.toNat 2 = 2 from rfl])
    (by norm_num [PITCH_CLASS_MODIFICATION_TO_ACCIDENTAL_NAME_DICT,
      ACCIDENTAL_NAME_TO_PITCH_CLASS_MODIFICATION_DICT, assocLookup])).1

/-- The synchronisation invariant of C7: the cached pitch-class name and the
pitch-class number are mutually derivable through the codec — the pitch was
last written either through the name setter (so the number is the
name's conversion) or through the number setter (so the name is the
number's conversion). -/
def pitchClassNameAndNumberInSync (p : WesternPitch) : Prop :=
  _pitch_class_name_to_pitch_class p.pitch_class_name = .ok p.pitch_class ∨
  p.pitch_class_name = _pitch_class_to_pitch_class_name p.pitch_class

/-- The base type's numeric addition keeps name and number in sync (the name
is regenerated through the `pitch_class` setter). -/
theorem sync_addNumericSemitone (p : WesternPitch) (semitone : ℚ) :
    pitchClassNameAndNumberInSync (p.addNumericSemitone semitone) :=
  Or.inr rfl

/-- The base type's numeric subtraction keeps name and number in sync. -/
theorem sync_subtractNumericSemitone (p : WesternPitch) (semitone : ℚ) :
    pitchClassNameAndNumberInSync (p.subtractNumericSemitone semitone) :=
  Or.inr rfl

/-- The diatonic interval addition keeps name and number in sync whichever
path (diatonic spelling or numeric fallback) it takes. -/
theorem sync_add_western_pitch_interval (p : WesternPitch) (i : WesternPitchInterval)
    (r : AddOutcome) (h : _add_western_pitch_interval p i = .ok r) :
    pitchClassNameAndNumberInSync r.pitch := by
  unfold _add_western_pitch_interval at h
  split at h
  · exact absurd h (by simp)
  · rename_i nm oc hg
    split at h
    · exact absurd h (by simp)
    · rename_i m hm
      split at h
      · rename_i hl
        have h2 : AddOutcome.fallback (p.addNumericSemitone i.semitone) = r := by
          simpa using h
        rw [← h2]
        exact sync_addNumericSemitone p i.semitone
      · rename_i acc hl
        split at h
        · exact absurd h (by simp)
        · rename_i p2 hs
          have h2 : AddOutcome.diatonic { p2 with octave := p2.octave + oc } = r := by
            simpa using h
          unfold WesternPitch.setPitchClassName at hs
          cases hn : _pitch_class_name_to_pitch_class (nm :: acc) with
          | error e => rw [hn] at hs; exact absurd hs (by simp [Except.map])
          | ok v =>
            rw [hn] at hs
            have h3 : (⟨v, p.octave, nm :: acc⟩ : WesternPitch) = p2 := by
              simpa [Except.map] using hs
            rw [← h2, ← h3]
            exact Or.inl hn

/-- `WesternPitch.add` keeps name and number in sync. -/
theorem sync_add (p : WesternPitch) (op : PitchIntervalOperand) (r : AddOutcome)
    (h : p.add op = .ok r) : pitchClassNameAndNumberInSync r.pitch := by
  unfold WesternPitch.add at h
  split at h
  · exact absurd h (by simp)
  · rename_i i heq
    exact sync_add_western_pitch_interval p i r h
  · rename_i q heq
    have h2 : AddOutcome.numeric (p.addNumericSemitone q) = r := by simpa using h
    rw [← h2]
    exact sync_addNumericSemitone p q

/-- `WesternPitch.subtract` keeps name and number in sync. -/
theorem sync_subtract (p : WesternPitch) (op : PitchIntervalOperand) (r : AddOutcome)
    (h : p.subtract op = .ok r) : pitchClassNameAndNumberInSync r.pitch := by
  unfold WesternPitch.subtract at h
  split at h
  · exact absurd h (by simp)
  · rename_i i heq
    exact sync_add p (.ofInterval i.inverse_direction) r h
  · rename_i q heq
    have h2 : AddOutcome.numeric (p.subtractNumericSemitone q) = r := by simpa using h
    rw [← h2]
    exact sync_subtractNumericSemitone p q

/-- C7: `pitch_class_name` and `pitch_class` are kept mutually derivable via
the codec: construction from a name or setting the name regenerates the
number as `name_to_number(name)`, construction from a number or setting the
number regenerates the name as `number_to_name(number)`, and `add` and
`subtract` preserve the synchronisation invariant on every outcome. -/
theorem C7_name_number_always_in_sync :
    (∀ (name : List Char) (octave : ℤ) (p : WesternPitch),
      WesternPitch.ofPitchClassName name octave = .ok p →
      _pitch_class_name_to_pitch_class name = .ok p.pitch_class ∧
        p.pitch_class_name = name ∧ pitchClassNameAndNumberInSync p) ∧
    (∀ (pitch_class : ℚ) (octave : ℤ),
      (WesternPitch.ofPitchClass pitch_class octave).pitch_class_name =
        _pitch_class_to_pitch_class_name pitch_class ∧
      (WesternPitch.ofPitchClass pitch_class octave).pitch_class = pitch_class ∧
      pitchClassNameAndNumberInSync (WesternPitch.ofPitchClass pitch_class octave)) ∧
    (∀ (p : WesternPitch) (name : List Char) (p' : WesternPitch),
      p.setPitchClassName name = .ok p' →
      _pitch_class_name_to_pitch_class name = .ok p'.pitch_class ∧
        p'.pitch_class_name = name ∧ pitchClassNameAndNumberInSync p') ∧
    (∀ (p : WesternPitch) (pitch_class : ℚ),
      (p.setPitchClass pitch_class).pitch_class_name =
        _pitch_class_to_pitch_class_name pitch_class ∧
      (p.setPitchClass pitch_class).pitch_class = pitch_class ∧
      pitchClassNameAndNumberInSync (p.setPitchClass pitch_class)) ∧
    (∀ (p : WesternPitch) (op : PitchIntervalOperand) (r : AddOutcome),
      p.add op = .ok r → pitchClassNameAndNumberInSync r.pitch) ∧
    (∀ (p : WesternPitch) (op : PitchIntervalOperand) (r : AddOutcome),
      p.subtract op = .ok r → pitchClassNameAndNumberInSync r.pitch) := by
  refine ⟨?_, ?_, ?_, ?_, sync_add, sync_subtract⟩
  · intro name octave p h
    unfold WesternPitch.ofPitchClassName at h
    cases hn : _pitch_class_name_to_pitch_class name with
    | error e => rw [hn] at h; exact absurd h (by simp [Except.map])
    | ok v =>
      rw [hn] at h
      have h3 : (⟨v, octave, name⟩ : WesternPitch) = p := by
        simpa [Except.map] using h
      rw [← h3]
      exact ⟨rfl, rfl, Or.inl hn⟩
  · intro pitch_class octave
    exact ⟨rfl, rfl, Or.inr rfl⟩
  · intro p name p' h
    unfold WesternPitch.setPitchClassName at h
    cases hn : _pitch_class_name_to_pitch_class name with
    | error e => rw [hn] at h; exact absurd h (by simp [Except.map])
    | ok v =>
      rw [hn] at h
      have h3 : (⟨v, p.octave, name⟩ : WesternPitch) = p' := by
        simpa [Except.map] using h
      rw [← h3]
      exact ⟨rfl, rfl, Or.inl hn⟩
  · intro p pitch_class
    exact ⟨rfl, rfl, Or.inr rfl⟩

/-- C7 witness: constructing `WesternPitch("cs", 4)` keeps name and number
in sync, with the number regenerated from the name. -/
theorem C7_witness_cs_construction :
    _pitch_class_name_to_pitch_class ['c', 's'] = .ok ((0 : ℚ) + 1) ∧
    (⟨(0 : ℚ) + 1, 4, ['c', 's']⟩ : WesternPitch).pitch_class_name = ['c', 's'] ∧
    pitchClassNameAndNumberInSync ⟨(0 : ℚ) + 1, 4, ['c', 's']⟩ :=
  C7_name_number_always_in_sync.1 ['c', 's'] 4 ⟨(0 : ℚ) + 1, 4, ['c', 's']⟩
    (by norm_num +decide [WesternPitch.ofPitchClassName, _pitch_class_name_to_pitch_class,
      _accidental_to_pitch_class_modifications, assocLookup, Except.map,
      DIATONIC_PITCH_NAME_TO_PITCH_CLASS_DICT,
      ACCIDENTAL_NAME_TO_PITCH_CLASS_MODIFICATION_DICT])

/-- `pyabs` agrees with the mathematical absolute value. -/
theorem pyabs_eq_abs (q : ℚ) : pyabs q = |q| := by
  unfold pyabs
  by_cases h : q < 0
  · rw [if_pos h, abs_of_neg h]
  · rw [if_neg h, abs_of_nonneg (le_of_not_lt h)]

/-- If an integer lies within 0.001 of `q` then Python's `round` returns
exactly that integer (it is the unique nearest integer). -/
theorem pythonRound_eq_of_close (q : ℚ) (n : ℤ)
    (h : pyabs ((n : ℚ) - q) < 1/1000) : pythonRound q = n := by
  rw [pyabs_eq_abs, abs_lt] at h
  obtain ⟨h1, h2⟩ := h
  have hf1 : ((⌊q⌋ : ℚ)) ≤ q := Int.floor_le q
  have hf2 : q < (⌊q⌋ : ℚ) + 1 := Int.lt_floor_add_one q
  have hcases : n = ⌊q⌋ ∨ n = ⌊q⌋ + 1 := by
    have hlow : ⌊q⌋ ≤ n := by
      by_contra hc
      push_neg at hc
      have hc2 : (n : ℚ) + 1 ≤ (⌊q⌋ : ℚ) := by exact_mod_cast hc
      linarith
    have hhigh : n ≤ ⌊q⌋ + 1 := by
      by_contra hc
      push_neg at hc
      have hc2 : (⌊q⌋ : ℚ) + 1 + 1 ≤ (n : ℚ) := by exact_mod_cast hc
      linarith
    omega
  have hr : pythonRound q =
      if q - ⌊q⌋ < 1/2 then ⌊q⌋
      else if (1 : ℚ)/2 < q - ⌊q⌋ then ⌊q⌋ + 1
      else if Even ⌊q⌋ then ⌊q⌋ else ⌊q⌋ + 1 := rfl
  rcases hcases with rfl | rfl
  · rw [hr, if_pos (by linarith)]
  · push_cast at h1 h2
    rw [hr, if_neg (by linarith), if_pos (by linarith)]

/-- C5 (amended): a bare real operand of `_parse_pitch_interval` is
converted to a `WesternPitchInterval` if and only if it lies within 0.001
semitone of an integer, and is otherwise passed through unchanged to the
generic numeric path; a **string** operand however — numeric or not — is
always handed to the `WesternPitchInterval` constructor and is never passed
through as a number. -/
theorem C5_real_operand_conversion_iff_near_integer :
    (∀ q : ℚ, (∃ n : ℤ, pyabs ((n : ℚ) - q) < 1/1000) →
      _parse_pitch_interval (.ofReal q) =
        some (.interval (WesternPitchInterval.ofNumber q))) ∧
    (∀ q : ℚ, (¬ ∃ n : ℤ, pyabs ((n : ℚ) - q) < 1/1000) →
      _parse_pitch_interval (.ofReal q) = some (.real q)) ∧
    (∀ s : List Char, _parse_pitch_interval (.ofStr s) =
      (WesternPitchInterval.ofString s).map .interval) := by
  refine ⟨?_, ?_, fun s => rfl⟩
  · intro q ⟨n, hn⟩
    have hr := pythonRound_eq_of_close q n hn
    rw [show _parse_pitch_interval (.ofReal q) =
        (if pyabs ((pythonRound q : ℚ) - q) < 1/1000 then
          some (.interval (WesternPitchInterval.ofNumber q))
        else some (.real q)) from rfl]
    rw [if_pos]
    rw [hr]
    exact hn
  · intro q hq
    rw [show _parse_pitch_interval (.ofReal q) =
        (if pyabs ((pythonRound q : ℚ) - q) < 1/1000 then
          some (.interval (WesternPitchInterval.ofNumber q))
        else some (.real q)) from rfl]
    rw [if_neg]
    intro hc
    exact hq ⟨pythonRound q, hc⟩

/-- C5 counterexample: the numeric string `"0.5"` denotes a microtonal
(non-near-integer) amount, yet it is **not** passed through unchanged to the
generic numeric path — the string branch unconditionally hands it to the
`WesternPitchInterval` constructor (which fails on it), contradicting the
claim's "otherwise it is passed unchanged" for numeric strings. -/
theorem C5_counterexample_microtonal_numeric_string :
    _parse_pitch_interval (.ofStr ['0', '.', '5']) ≠ some (.real (1/2)) ∧
    ¬ (∃ n : ℤ, pyabs ((n : ℚ) - 1/2) < 1/1000) := by
  constructor
  · intro h
    exact absurd h (by simp [_parse_pitch_interval, WesternPitchInterval.ofString,
      digitsToNat?])
  · intro ⟨n, hn⟩
    have hr := pythonRound_eq_of_close (1/2) n hn
    have h0 : pythonRound (1/2 : ℚ) = 0 := by
      norm_num [pythonRound]
    rw [h0] at hr
    subst hr
    norm_num [pyabs] at hn

/-- C5 witness: the integral real `3` is converted (it is within 0.001 of
the integer 3). -/
theorem C5_witness_integral_real_converted :
    _parse_pitch_interval (.ofReal 3) =
      some (.interval (WesternPitchInterval.ofNumber 3)) :=
  C5_real_operand_conversion_iff_near_integer.1 3
    ⟨3, by norm_num [pyabs]⟩

set_option maxHeartbeats 3200000 in
/-- C2: for every diatonic letter `L` and accidental `A` of the table such
that `L`'s base offset is the unique closest diatonic base to
`name_to_number(L+A)` and `A`'s offset is the unique closest table entry to
the residual, converting the name to a number and back returns exactly
`L+A`: `number_to_name(name_to_number(L+A)) = L+A`. -/
theorem C2_roundtrip_for_unique_closest_names :
    ∀ pL ∈ DIATONIC_PITCH_NAME_TO_PITCH_CLASS_DICT,
    ∀ pA ∈ ACCIDENTAL_NAME_TO_PITCH_CLASS_MODIFICATION_DICT,
      (∀ pM ∈ DIATONIC_PITCH_NAME_TO_PITCH_CLASS_DICT, pM.1 ≠ pL.1 →
        pyabs (pL.2 + pA.2 - pL.2) < pyabs (pL.2 + pA.2 - pM.2)) →
      (∀ pO ∈ ACCIDENTAL_NAME_TO_PITCH_CLASS_MODIFICATION_DICT, pO.1 ≠ pA.1 →
        pyabs (pL.2 + pA.2 - pL.2 - pA.2) < pyabs (pL.2 + pA.2 - pL.2 - pO.2)) →
      (_pitch_class_name_to_pitch_class (pL.1 :: pA.1)).map
        _pitch_class_to_pitch_class_name = .ok (pL.1 :: pA.1) := by
  intro pL hL pA hA
  fin_cases hL <;> fin_cases hA <;>
    norm_num +decide [_pitch_class_name_to_pitch_class,
      _accidental_to_pitch_class_modifications, _pitch_class_to_pitch_class_name,
      _difference_to_closest_diatonic_pitch_to_accidental, find_closest_item,
      find_closest_index, findClosestIndexAux, assocLookup, pyabs, Except.map,
      DIATONIC_PITCH_NAME_TO_PITCH_CLASS_DICT,
      ACCIDENTAL_NAME_TO_PITCH_CLASS_MODIFICATION_DICT,
      PITCH_CLASS_MODIFICATION_TO_ACCIDENTAL_NAME_DICT]

/-- C2 witness: `"dqf"` (pitch class 3/2) round-trips — d is the unique
closest base to 3/2 and the quarter-flat the unique closest entry to the
residual -1/2. -/
theorem C2_witness_dqf_roundtrip :
    (_pitch_class_name_to_pitch_class (['d'] ++ ['q', 'f'])).map
      _pitch_class_to_pitch_class_name = .ok (['d'] ++ ['q', 'f']) :=
  C2_roundtrip_for_unique_closest_names ('d', 2) (by norm_num
      [DIATONIC_PITCH_NAME_TO_PITCH_CLASS_DICT])
    (['q', 'f'], -1/2) (by norm_num [ACCIDENTAL_NAME_TO_PITCH_CLASS_MODIFICATION_DICT])
    (by norm_num +decide [DIATONIC_PITCH_NAME_TO_PITCH_CLASS_DICT, pyabs])
    (by norm_num +decide [ACCIDENTAL_NAME_TO_PITCH_CLASS_MODIFICATION_DICT, pyabs])

end MutwoMusic
